import Mathlib

/-!
Verification development for the Boint-device detection server
(`src/app.py`, `src/detect.py`).

The embedding models, faithfully to the source:
  * `detect_image` — the extraction loop of `YOLODetector.detect_image`
    (`src/detect.py` lines 71-97): the raw inference output is abstracted as a
    list of boxes, each carrying a class id and a confidence; the loop keeps
    boxes with `box.conf >= conf_threshold` and appends label, confidence and
    bounding box together; `unique_labels = list(set(detected_labels))` is
    modelled by `List.dedup` (the same set of distinct labels).
  * the `detection_jobs` dictionary — an association list from job-id strings
    to `JobRec`; Python dict assignment is `updMap`, membership/read is
    `findMap`.
  * the three job-record dict literals of `src/app.py`: `queuedJob`
    (lines 134-140), `completedJob` (lines 64-75) and `errorJob`
    (lines 79-87).  Field presence is modelled with `Option`: the completed
    and error records are full replacements that carry no
    `confidence_threshold` key.
  * `upload_image` (`src/app.py` lines 89-167) — as a pure function of the
    request, the generated job id, the current time, the job map and the set
    of saved files.  Python floats are modelled by `ℚ`; a confidence form
    field is absent, a parseable number, or a string on which `float()`
    raises (`ConfField.malformed`, caught by the outer handler as a 500).
  * `get_result` (`src/app.py` lines 169-205) — the `.get`-with-default reads
    of the handler, including the completed/error-only response fields.
  * a small-step relation `Step` on `ServerState` for the concurrent
    behaviour: `upload` (the handler inserts the queued record and spawns a
    background thread before returning), `mark` (the thread's in-place
    `detection_jobs[job_id]['status'] = 'processing'`), `complete` and `fail`
    (the thread's full-record replacement on detector success/exception).
    Each job has exactly one background thread whose program counter is its
    `Phase`.  The remaining endpoints (`/api/result`, `/api/jobs`,
    `/health`, `/api/files*`, `/api/model/info`) only read `detection_jobs`
    (file cleanup removes files, never job records), so they contribute no
    job-map mutation and no `Step` constructor.
-/

/-- Job lifecycle states, the `status` strings of `src/app.py`. -/
inductive JobStatus
  | queued
  | processing
  | completed
  | error
deriving DecidableEq

/-- Program counter of the single background thread attached to a job:
before `detection_jobs[job_id]['status'] = 'processing'` (`spawned`),
between that write and the terminal record replacement (`running`, the
sleep + detector invocation), and after the terminal write (`finished`). -/
inductive Phase
  | spawned
  | running
  | finished
deriving DecidableEq

/-- One raw box of the inference output `results` in
`YOLODetector.detect_image`: a class id, a confidence and `xyxy`
coordinates.  The neural network itself is an external capability, so the
list of boxes is universally quantified wherever it appears. -/
structure RawBox where
  cls : ℕ
  conf : ℚ
  xyxy : List ℚ
deriving DecidableEq

/-- The dict returned by `YOLODetector.detect_image` (minus `model_names`,
which none of the orchestrator logic reads). -/
structure DetectionResult where
  labels : List String
  confidences : List ℚ
  boxes : List (List ℚ)
  total_objects : ℕ
  unique_labels : List String
deriving DecidableEq

/-- The boxes kept by the loop guard `if box.conf >= conf_threshold`
(`src/detect.py` line 77), in source order. -/
def qualifying (conf_threshold : ℚ) (result_boxes : List RawBox) : List RawBox :=
  result_boxes.filter fun b => decide (conf_threshold ≤ b.conf)

/-- The extraction loop of `YOLODetector.detect_image`
(`src/detect.py` lines 71-97): for each qualifying box the label, the
confidence and the bounding box are appended together, so the three lists
are the images of the same filtered list; `total_objects` is the length of
the label list and `unique_labels` the distinct labels. -/
def detect_image (names : ℕ → String) (conf_threshold : ℚ)
    (result_boxes : List RawBox) : DetectionResult :=
  let kept := qualifying conf_threshold result_boxes
  { labels := kept.map fun b => names b.cls,
    confidences := kept.map fun b => b.conf,
    boxes := kept.map fun b => b.xyxy,
    total_objects := (kept.map fun b => names b.cls).length,
    unique_labels := (kept.map fun b => names b.cls).dedup }

/-- `sum(confidences) / len(confidences) if confidences else 0`
(`src/app.py` line 73). -/
def mean_confidence (cs : List ℚ) : ℚ :=
  if cs = [] then 0 else cs.sum / (cs.length : ℚ)

/-- A value of the `detection_jobs` dictionary.  The Python job records are
plain dicts whose key sets differ by state; a key that a given record may
lack is an `Option` field (`none` = key absent). -/
structure JobRec where
  status : JobStatus
  results : List String
  filename : String
  timestamp : ℕ
  confidence_threshold : Option ℚ
  total_objects : Option ℕ
  unique_objects : Option ℕ
  all_labels : Option (List String)
  confidences : Option (List ℚ)
  avg_confidence : Option ℚ
  error : Option String
deriving DecidableEq

/-- The dict inserted by `upload_image` (`src/app.py` lines 134-140):
status queued, empty results, the stored filename, the timestamp and the
clamped confidence threshold; no other keys. -/
def queuedJob (filename : String) (ts : ℕ) (conf : ℚ) : JobRec :=
  { status := JobStatus.queued, results := [], filename := filename,
    timestamp := ts, confidence_threshold := some conf,
    total_objects := none, unique_objects := none, all_labels := none,
    confidences := none, avg_confidence := none, error := none }

/-- The full-replacement dict written on detector success
(`src/app.py` lines 64-75).  Note the record carries no
`confidence_threshold` key: the assignment replaces the whole dict.
(`detection_details` duplicates the fields already present and is omitted.) -/
def completedJob (filename : String) (ts : ℕ) (dr : DetectionResult) : JobRec :=
  { status := JobStatus.completed, results := dr.unique_labels,
    filename := filename, timestamp := ts, confidence_threshold := none,
    total_objects := some dr.total_objects,
    unique_objects := some dr.unique_labels.length,
    all_labels := some dr.labels, confidences := some dr.confidences,
    avg_confidence := some (mean_confidence dr.confidences), error := none }

/-- The full-replacement dict written when the detector raises
(`src/app.py` lines 79-87); again no `confidence_threshold` key. -/
def errorJob (filename : String) (ts : ℕ) (msg : String) : JobRec :=
  { status := JobStatus.error, results := [], filename := filename,
    timestamp := ts, confidence_threshold := none, total_objects := some 0,
    unique_objects := some 0, all_labels := none, confidences := none,
    avg_confidence := none, error := some msg }

/-- Remove every binding of a key from an association list (helper for
dict assignment). -/
def eraseKeyStr {α : Type} : List (String × α) → String → List (String × α)
  | [], _ => []
  | (k, w) :: rest, id => if k = id then eraseKeyStr rest id
                          else (k, w) :: eraseKeyStr rest id

/-- Python dict assignment `d[id] = v` on the association-list model. -/
def updMap {α : Type} (l : List (String × α)) (id : String) (v : α) :
    List (String × α) :=
  (id, v) :: eraseKeyStr l id

/-- Python dict read `d[id]` / membership `id in d` on the model. -/
def findMap {α : Type} : List (String × α) → String → Option α
  | [], _ => none
  | (k, w) :: rest, id => if id = k then some w else findMap rest id

/-- The confidence form field of an upload request: missing, a string that
`float()` parses to a numeric value, or a string on which `float()` raises
`ValueError`.  (Python `float` can also produce `inf`/`nan`, which the
range check of line 115 sends to the out-of-range branch; `ℚ` values
outside `[1/10, 1]` cover that branch.) -/
inductive ConfField
  | absent
  | num (q : ℚ)
  | malformed
deriving DecidableEq

/-- `float(request.form.get('confidence', 0.5))` (`src/app.py` line 114):
the missing field defaults to `0.5`; a malformed value makes `float()`
raise (`none`), which the surrounding `try` turns into a 500 response. -/
def parse_confidence : ConfField → Option ℚ
  | ConfField.absent => some (1/2)
  | ConfField.num q => some q
  | ConfField.malformed => none

/-- `if not (0.1 <= conf_threshold <= 1.0): conf_threshold = 0.5`
(`src/app.py` lines 115-116). -/
def clamp_confidence (c : ℚ) : ℚ :=
  if 1/10 ≤ c ∧ c ≤ 1 then c else 1/2

/-- `ALLOWED_EXTENSIONS` of `src/app.py` line 17. -/
def ALLOWED_EXTENSIONS : List String := ["png", "jpg", "jpeg", "gif", "bmp"]

/-- The suffix after the last dot of a character list, when a dot occurs:
`rsplit('.', 1)[1]` together with the `'.' in filename` test. -/
def afterLastDot : List Char → Option (List Char)
  | [] => none
  | c :: cs =>
      match afterLastDot cs with
      | some e => some e
      | none => if c = '.' then some cs else none

/-- `allowed_file` (`src/app.py` lines 31-34): the name contains a dot and
the part after the last dot, lowercased, is a recognised image
extension. -/
def allowed_file (filename : String) : Bool :=
  match afterLastDot filename.data with
  | some ext => ALLOWED_EXTENSIONS.contains (String.mk (ext.map Char.toLower))
  | none => false

/-- Abstraction of `werkzeug.utils.secure_filename` (an external library
call): keep only alphanumerics, dots, dashes and underscores.  No claim
depends on its exact behaviour. -/
def secure_filename (s : String) : String :=
  String.mk (s.data.filter fun c => c.isAlphanum || c = '.' || c = '-' || c = '_')

/-- An upload request as `upload_image` consumes it: whether
`detector.model` is loaded, the `image` multipart field (absent, or
present with its client filename), and the `confidence` form field. -/
structure UploadRequest where
  modelLoaded : Bool
  imageField : Option String
  confidence : ConfField
deriving DecidableEq

/-- What the `/api/upload` handler produces: the HTTP status code, the
returned `job_id` and `confidence_threshold` (present only on 200), the
job map after the call and the list of files saved to the uploads folder. -/
structure UploadOutcome where
  code : ℕ
  job_id : Option String
  conf_used : Option ℚ
  store : List (String × JobRec)
  savedFiles : List String
deriving DecidableEq

/-- The `/api/upload` handler `upload_image` (`src/app.py` lines 89-167) as
a pure function.  Control flow in source order: 503 when the model is not
loaded; 400 when the `image` field is missing or its filename is empty;
then the confidence parse (whose failure is caught by the outer handler as
a 500, before any file is saved or any job created); then the extension
check (400 on failure); on success the file is saved, the queued record is
inserted under a fresh uuid, the background thread is spawned and the id
is returned with code 200.  `freshId` stands for the generated `uuid4`
(unique, never reused), `ts`/`tsStr` for `datetime.now()` and its
`strftime` form. -/
def upload_image (req : UploadRequest) (freshId : String) (ts : ℕ)
    (tsStr : String) (store : List (String × JobRec)) (saved : List String) :
    UploadOutcome :=
  if req.modelLoaded = false then
    { code := 503, job_id := none, conf_used := none, store := store,
      savedFiles := saved }
  else
    match req.imageField with
    | none =>
        { code := 400, job_id := none, conf_used := none, store := store,
          savedFiles := saved }
    | some fname =>
        if fname = "" then
          { code := 400, job_id := none, conf_used := none, store := store,
            savedFiles := saved }
        else
          match parse_confidence req.confidence with
          | none =>
              { code := 500, job_id := none, conf_used := none,
                store := store, savedFiles := saved }
          | some c0 =>
              let conf := clamp_confidence c0
              if allowed_file fname then
                let filename := tsStr ++ "_" ++ secure_filename fname
                { code := 200, job_id := some freshId,
                  conf_used := some conf,
                  store := updMap store freshId (queuedJob filename ts conf),
                  savedFiles := saved ++ [filename] }
              else
                { code := 400, job_id := none, conf_used := none,
                  store := store, savedFiles := saved }

/-- `round(x, 3)` of `src/app.py` line 199 modelled on `ℚ` (display-only;
no claim depends on the tie-breaking of Python float rounding). -/
def round3 (q : ℚ) : ℚ := ((round (q * 1000) : ℤ) : ℚ) / 1000

/-- The response body of `GET /api/result/{job_id}` (`src/app.py`
lines 183-203): the always-present fields, plus the completed-only and
error-only extras as `Option`s. -/
structure ResultResponse where
  job_id : String
  status : JobStatus
  hasil : List String
  filename : String
  timestamp : ℕ
  total_objects : ℕ
  unique_objects : ℕ
  confidence_threshold : ℚ
  all_detected_labels : Option (List String)
  confidences : Option (List ℚ)
  average_confidence : Option ℚ
  error : Option String
deriving DecidableEq

/-- The `get_result` handler (`src/app.py` lines 169-205): 404 when the id
is not a key of `detection_jobs`; otherwise the response assembled with
`.get` defaults — in particular `confidence_threshold` defaults to `0.5`
when the record lacks the key (line 191). -/
def get_result (jobs : List (String × JobRec)) (job_id : String) :
    Except ℕ ResultResponse :=
  match findMap jobs job_id with
  | none => Except.error 404
  | some j =>
      Except.ok
        { job_id := job_id, status := j.status, hasil := j.results,
          filename := j.filename, timestamp := j.timestamp,
          total_objects := j.total_objects.getD 0,
          unique_objects := j.unique_objects.getD 0,
          confidence_threshold := j.confidence_threshold.getD (1/2),
          all_detected_labels :=
            if j.status = JobStatus.completed then some (j.all_labels.getD [])
            else none,
          confidences :=
            if j.status = JobStatus.completed then some (j.confidences.getD [])
            else none,
          average_confidence :=
            if j.status = JobStatus.completed then
              some (round3 (j.avg_confidence.getD 0))
            else none,
          error :=
            if j.status = JobStatus.error then
              some (j.error.getD "Unknown error")
            else none }

/-- The `get_result` Flask handler as a state transformer: it only reads
`detection_jobs` (no assignment anywhere in `src/app.py` lines 169-205),
so the job map it leaves behind is the one it received. -/
def get_result_endpoint (jobs : List (String × JobRec)) (job_id : String) :
    Except ℕ ResultResponse × List (String × JobRec) :=
  (get_result jobs job_id, jobs)

/-- The arguments `upload_image` hands to `detect_objects_background`
(`src/app.py` lines 142-148) together with the thread's program counter.
The `image_path` argument is subsumed by abstracting the detector call. -/
structure BgThread where
  phase : Phase
  filename : String
  conf_threshold : ℚ
deriving DecidableEq

/-- The mutable server state: the `detection_jobs` dictionary and the
per-job background threads (one spawned per upload, `src/app.py`
lines 143-148). -/
structure ServerState where
  jobs : List (String × JobRec)
  threads : List (String × BgThread)

/-- Process start: `detection_jobs = {}` (`src/app.py` line 20), no
threads. -/
def initState : ServerState := { jobs := [], threads := [] }

/-- State after a valid upload returns: the queued record is inserted
(`src/app.py` line 134) and the daemon thread for the job is started
(line 148) before the 200 response. -/
def uploadState (s : ServerState) (id fn : String) (ts : ℕ) (conf : ℚ) :
    ServerState :=
  { jobs := updMap s.jobs id (queuedJob fn ts conf),
    threads := updMap s.threads id
      { phase := Phase.spawned, filename := fn, conf_threshold := conf } }

/-- State after the thread's in-place write
`detection_jobs[job_id]['status'] = 'processing'` (`src/app.py` line 44):
the looked-up record keeps every other field. -/
def markState (s : ServerState) (id : String) (j : JobRec) (thr : BgThread) :
    ServerState :=
  { jobs := updMap s.jobs id { j with status := JobStatus.processing },
    threads := updMap s.threads id { thr with phase := Phase.running } }

/-- State after the thread's success write (`src/app.py` lines 64-75): the
whole record is replaced by the completed dict built from the detector
output. -/
def completeState (s : ServerState) (id : String) (thr : BgThread)
    (names : ℕ → String) (boxes : List RawBox) (ts : ℕ) : ServerState :=
  { jobs := updMap s.jobs id
      (completedJob thr.filename ts (detect_image names thr.conf_threshold boxes)),
    threads := updMap s.threads id { thr with phase := Phase.finished } }

/-- State after the thread's exception handler (`src/app.py` lines 77-87):
the whole record is replaced by the error dict. -/
def failState (s : ServerState) (id : String) (thr : BgThread) (msg : String)
    (ts : ℕ) : ServerState :=
  { jobs := updMap s.jobs id (errorJob thr.filename ts msg),
    threads := updMap s.threads id { thr with phase := Phase.finished } }

/-- Interleaved small steps of the server.  `upload` is the success path of
the `/api/upload` handler (uuid4 ids are unique, hence the freshness
premise); `mark`, `complete` and `fail` are the three writes of
`detect_objects_background`, gated by the thread's program counter.  The
detector outcome is nondeterministic: any box list / class-name table on
success, any message on failure.  No endpoint of `src/app.py` ever deletes
a key of `detection_jobs` (the cleanup endpoint removes files only), so no
step removes a job. -/
inductive Step : ServerState → ServerState → Prop
  | upload (s : ServerState) (id fn : String) (ts : ℕ) (conf : ℚ)
      (hfresh : findMap s.jobs id = none) :
      Step s (uploadState s id fn ts conf)
  | mark (s : ServerState) (id : String) (j : JobRec) (thr : BgThread)
      (hj : findMap s.jobs id = some j)
      (ht : findMap s.threads id = some thr)
      (hph : thr.phase = Phase.spawned) :
      Step s (markState s id j thr)
  | complete (s : ServerState) (id : String) (thr : BgThread)
      (names : ℕ → String) (boxes : List RawBox) (ts : ℕ)
      (ht : findMap s.threads id = some thr)
      (hph : thr.phase = Phase.running) :
      Step s (completeState s id thr names boxes ts)
  | fail (s : ServerState) (id : String) (thr : BgThread) (msg : String)
      (ts : ℕ)
      (ht : findMap s.threads id = some thr)
      (hph : thr.phase = Phase.running) :
      Step s (failState s id thr msg ts)

/-- States reachable from process start by any interleaving of uploads and
background-thread steps. -/
def Reachable (s : ServerState) : Prop :=
  Relation.ReflTransGen Step initState s

/-- The status edges the code can take: queued to processing (`mark`),
processing to completed (`complete`), processing to error (`fail`);
nothing else. -/
def forwardEdge : JobStatus → JobStatus → Bool
  | JobStatus.queued, JobStatus.processing => true
  | JobStatus.processing, JobStatus.completed => true
  | JobStatus.processing, JobStatus.error => true
  | _, _ => false

/-- Consistency of a job record with its background thread: the thread's
program counter determines the record's status, and whether the record
still carries the creation-time `confidence_threshold` key.  A job exists
iff its thread does. -/
def JT : Option JobRec → Option BgThread → Prop
  | none, none => True
  | some j, some thr =>
      (thr.phase = Phase.spawned →
        j.status = JobStatus.queued ∧
        j.confidence_threshold = some thr.conf_threshold) ∧
      (thr.phase = Phase.running →
        j.status = JobStatus.processing ∧
        j.confidence_threshold = some thr.conf_threshold) ∧
      (thr.phase = Phase.finished →
        (j.status = JobStatus.completed ∨ j.status = JobStatus.error) ∧
        j.confidence_threshold = none)
  | none, some _ => False
  | some _, none => False

/-- The reachability invariant: every id's record and thread are
consistent. -/
def SysInv (s : ServerState) : Prop :=
  ∀ id : String, JT (findMap s.jobs id) (findMap s.threads id)

/-- Number of background detections currently in flight: threads between
the `processing` write and the terminal write. -/
def runningCount : List (String × BgThread) → ℕ
  | [] => 0
  | (_, thr) :: rest =>
      (if thr.phase = Phase.running then 1 else 0) + runningCount rest

/-- Simultaneously executing detector invocations in a state. -/
def inFlight (s : ServerState) : ℕ := runningCount s.threads

/-- Distinct job-id strings for building concrete traces. -/
def mkId (n : ℕ) : String := String.mk (List.replicate n 'a')

/-- C4, spec side: the threshold the spec says an upload is created with —
`0.5` when the field is absent or out of `[0.1, 1.0]`, the exact value
when inside; no job on an unparseable field. -/
def specExpectedThreshold : ConfField → Option ℚ
  | ConfField.absent => some (1/2)
  | ConfField.num q => some (if 1/10 ≤ q ∧ q ≤ 1 then q else 1/2)
  | ConfField.malformed => none

/-- A class-name table for concrete traces. -/
def demoNames : ℕ → String := fun _ => "botol"

/-- A detector output with no boxes, for concrete traces. -/
def demoBoxes : List RawBox := []

/-- The queued record of the demo job. -/
def demoQJ : JobRec := queuedJob "f.png" 0 (9/10)

/-- The freshly spawned thread of the demo job. -/
def demoThr : BgThread :=
  { phase := Phase.spawned, filename := "f.png", conf_threshold := 9/10 }

/-- Demo trace, step 1: upload with threshold `9/10`. -/
def demoUp : ServerState := uploadState initState "a" "f.png" 0 (9/10)

/-- Demo trace, step 2: the background thread marks the job processing. -/
def demoMark : ServerState := markState demoUp "a" demoQJ demoThr

/-- The demo thread while the detector runs. -/
def demoThrRun : BgThread := { demoThr with phase := Phase.running }

/-- Demo trace, step 3: the detector returns no boxes and the job
completes. -/
def demoDone : ServerState := completeState demoMark "a" demoThrRun demoNames demoBoxes 1

/-- The completed record of the demo job. -/
def demoCJ : JobRec := completedJob "f.png" 1 (detect_image demoNames (9/10) demoBoxes)

/-- The queued record used by the thread-per-upload trace of C9. -/
def poolQJ : JobRec := queuedJob "f.png" 0 (1/2)

/-- The just-spawned thread used by the thread-per-upload trace of C9. -/
def poolThrS : BgThread :=
  { phase := Phase.spawned, filename := "f.png", conf_threshold := 1/2 }

/-- The running thread used by the thread-per-upload trace of C9. -/
def poolThrR : BgThread := { poolThrS with phase := Phase.running }

/-- The demo job record after the in-place status write. -/
def demoPJ : JobRec := { demoQJ with status := JobStatus.processing }

/-- An upload outcome that creates no job: the response code, the job map
and the saved files exactly as they were. -/
def noJobOutcome (code : ℕ) (store : List (String × JobRec))
    (saved : List String) : UploadOutcome :=
  { code := code, job_id := none, conf_used := none, store := store,
    savedFiles := saved }

theorem findMap_updMap_self {α : Type} (l : List (String × α)) (id : String)
    (v : α) : findMap (updMap l id v) id = some v := by
  simp [updMap, findMap]

theorem findMap_erase_ne {α : Type} (l : List (String × α)) {id id' : String}
    (h : id' ≠ id) : findMap (eraseKeyStr l id) id' = findMap l id' := by
  induction l with
  | nil => rfl
  | cons p rest ih =>
    obtain ⟨k, w⟩ := p
    by_cases hk : k = id
    · subst hk
      simp [eraseKeyStr, findMap, ih, h]
    · by_cases h2 : id' = k
      · subst h2
        simp [eraseKeyStr, hk, findMap]
      · simp [eraseKeyStr, hk, findMap, h2, ih]

theorem findMap_updMap_ne {α : Type} (l : List (String × α)) {id id' : String}
    (v : α) (h : id' ≠ id) : findMap (updMap l id v) id' = findMap l id' := by
  simp [updMap, findMap, h, findMap_erase_ne l h]

theorem erase_of_find_none {α : Type} (l : List (String × α)) (id : String)
    (h : findMap l id = none) : eraseKeyStr l id = l := by
  induction l with
  | nil => rfl
  | cons p rest ih =>
    obtain ⟨k, w⟩ := p
    by_cases hk : id = k
    · subst hk
      simp [findMap] at h
    · have hr : findMap rest id = none := by simpa [findMap, hk] using h
      have hk' : ¬ (k = id) := fun hh => hk hh.symm
      simp [eraseKeyStr, hk', ih hr]

theorem findMap_updMap_pres {α : Type} (l : List (String × α))
    (id0 id : String) (v w : α) (hj : findMap l id = some w) :
    ∃ w', findMap (updMap l id0 v) id = some w' := by
  by_cases hid : id = id0
  · subst hid
    exact ⟨v, findMap_updMap_self l id v⟩
  · exact ⟨w, by rw [findMap_updMap_ne l v hid]; exact hj⟩

theorem sysInv_init : SysInv initState := by
  intro id
  exact trivial

theorem sysInv_step (s s' : ServerState) (hs : SysInv s) (hstep : Step s s') :
    SysInv s' := by
  cases hstep with
  | upload id0 fn ts conf hfresh =>
    intro id
    by_cases hid : id = id0
    · subst hid
      simp only [uploadState]
      rw [findMap_updMap_self, findMap_updMap_self]
      simp [JT, queuedJob]
    · simp only [uploadState]
      rw [findMap_updMap_ne _ _ hid, findMap_updMap_ne _ _ hid]
      exact hs id
  | mark id0 j thr hj ht hph =>
    intro id
    by_cases hid : id = id0
    · subst hid
      have hJT := hs id
      rw [hj, ht] at hJT
      simp only [JT] at hJT
      obtain ⟨hst, hct⟩ := hJT.1 hph
      simp only [markState]
      rw [findMap_updMap_self, findMap_updMap_self]
      simp [JT, hct]
    · simp only [markState]
      rw [findMap_updMap_ne _ _ hid, findMap_updMap_ne _ _ hid]
      exact hs id
  | complete id0 thr names boxes ts ht hph =>
    intro id
    by_cases hid : id = id0
    · subst hid
      simp only [completeState]
      rw [findMap_updMap_self, findMap_updMap_self]
      simp [JT, completedJob]
    · simp only [completeState]
      rw [findMap_updMap_ne _ _ hid, findMap_updMap_ne _ _ hid]
      exact hs id
  | fail id0 thr msg ts ht hph =>
    intro id
    by_cases hid : id = id0
    · subst hid
      simp only [failState]
      rw [findMap_updMap_self, findMap_updMap_self]
      simp [JT, errorJob]
    · simp only [failState]
      rw [findMap_updMap_ne _ _ hid, findMap_updMap_ne _ _ hid]
      exact hs id

theorem sysInv_reachable (s : ServerState) (hr : Reachable s) : SysInv s := by
  induction hr with
  | refl => exact sysInv_init
  | tail hsteps hstep ih => exact sysInv_step _ _ ih hstep

theorem step_preserves_job (s s' : ServerState) (hstep : Step s s')
    (id : String) (j : JobRec) (hj : findMap s.jobs id = some j) :
    ∃ j', findMap s'.jobs id = some j' := by
  cases hstep with
  | upload id0 fn ts conf hfresh =>
    exact findMap_updMap_pres s.jobs id0 id _ j hj
  | mark id0 j0 thr hj0 ht hph =>
    exact findMap_updMap_pres s.jobs id0 id _ j hj
  | complete id0 thr names boxes ts ht hph =>
    exact findMap_updMap_pres s.jobs id0 id _ j hj
  | fail id0 thr msg ts ht hph =>
    exact findMap_updMap_pres s.jobs id0 id _ j hj

theorem rtg_preserves_job (s s2 : ServerState)
    (h : Relation.ReflTransGen Step s s2) (id : String) (j : JobRec)
    (hj : findMap s.jobs id = some j) :
    ∃ j', findMap s2.jobs id = some j' := by
  induction h with
  | refl => exact ⟨j, hj⟩
  | tail hsteps hstep ih =>
    obtain ⟨j', hj'⟩ := ih
    exact step_preserves_job _ _ hstep id j' hj'

theorem mkId_inj (a b : ℕ) (h : mkId a = mkId b) : a = b := by
  have h2 : List.replicate a 'a' = List.replicate b 'a' :=
    congrArg String.data h
  simpa using congrArg List.length h2

theorem demoStepUp : Step initState demoUp :=
  Step.upload initState "a" "f.png" 0 (9/10) rfl

theorem demoStepMark : Step demoUp demoMark :=
  Step.mark demoUp "a" demoQJ demoThr
    (findMap_updMap_self initState.jobs "a" demoQJ)
    (findMap_updMap_self initState.threads "a" demoThr) rfl

theorem demoStepDone : Step demoMark demoDone :=
  Step.complete demoMark "a" demoThrRun demoNames demoBoxes 1
    (findMap_updMap_self demoUp.threads "a" demoThrRun) rfl

theorem demoReachUp : Reachable demoUp :=
  Relation.ReflTransGen.tail Relation.ReflTransGen.refl demoStepUp

theorem demoReachMark : Reachable demoMark :=
  Relation.ReflTransGen.tail demoReachUp demoStepMark

theorem demoReachDone : Reachable demoDone :=
  Relation.ReflTransGen.tail demoReachMark demoStepDone

theorem exists_inflight (n : ℕ) :
    ∃ s : ServerState, Reachable s ∧ inFlight s = n ∧
      ∀ m : ℕ, n ≤ m →
        findMap s.jobs (mkId m) = none ∧ findMap s.threads (mkId m) = none := by
  induction n with
  | zero =>
    refine ⟨initState, Relation.ReflTransGen.refl, rfl, ?_⟩
    intro m _
    exact ⟨rfl, rfl⟩
  | succ n ih =>
    obtain ⟨s, hr, hcount, hfresh⟩ := ih
    have hj0 : findMap s.jobs (mkId n) = none := (hfresh n le_rfl).1
    have ht0 : findMap s.threads (mkId n) = none := (hfresh n le_rfl).2
    have step1 : Step s (uploadState s (mkId n) "f.png" 0 (1/2)) :=
      Step.upload s (mkId n) "f.png" 0 (1/2) hj0
    have hq : findMap (uploadState s (mkId n) "f.png" 0 (1/2)).jobs (mkId n) =
        some poolQJ :=
      findMap_updMap_self s.jobs (mkId n) _
    have htS : findMap (uploadState s (mkId n) "f.png" 0 (1/2)).threads (mkId n) =
        some poolThrS :=
      findMap_updMap_self s.threads (mkId n) _
    have step2 : Step (uploadState s (mkId n) "f.png" 0 (1/2))
        (markState (uploadState s (mkId n) "f.png" 0 (1/2)) (mkId n) poolQJ poolThrS) :=
      Step.mark _ (mkId n) _ _ hq htS rfl
    refine ⟨markState (uploadState s (mkId n) "f.png" 0 (1/2)) (mkId n) poolQJ poolThrS,
      Relation.ReflTransGen.tail (Relation.ReflTransGen.tail hr step1) step2,
      ?_, ?_⟩
    · have hthreads :
          (markState (uploadState s (mkId n) "f.png" 0 (1/2)) (mkId n) poolQJ
            poolThrS).threads = (mkId n, poolThrR) :: s.threads := by
        simp [markState, uploadState, updMap, eraseKeyStr, poolThrR,
          erase_of_find_none s.threads (mkId n) ht0]
      have hc : runningCount s.threads = n := hcount
      rw [inFlight, hthreads]
      simp [runningCount, poolThrR, poolThrS, hc]
      omega
    · intro m hm
      have hne : mkId m ≠ mkId n := fun hh => by
        have := mkId_inj m n hh
        omega
      constructor
      · show findMap (updMap (updMap s.jobs (mkId n) _) (mkId n) _) (mkId m) = none
        rw [findMap_updMap_ne _ _ hne, findMap_updMap_ne _ _ hne]
        exact (hfresh m (by omega)).1
      · show findMap (updMap (updMap s.threads (mkId n) _) (mkId n) _) (mkId m) = none
        rw [findMap_updMap_ne _ _ hne, findMap_updMap_ne _ _ hne]
        exact (hfresh m (by omega)).2

/-- C3: for every detector output — and hence for every completed job,
whose stored record copies these fields verbatim — the label and
confidence sequences have the same length, which is `total_objects`;
element `i` of both sequences comes from the same qualifying box of the
source loop (index alignment); and `unique_labels` is exactly the set of
distinct elements of `labels` (same membership, no duplicates). -/
theorem c3_labels_confidences_aligned (names : ℕ → String) (t : ℚ)
    (bs : List RawBox) (fn : String) (ts : ℕ) :
    (detect_image names t bs).labels.length =
      (detect_image names t bs).confidences.length ∧
    (detect_image names t bs).total_objects =
      (detect_image names t bs).labels.length ∧
    (∀ i : ℕ, (detect_image names t bs).labels[i]? =
      ((qualifying t bs)[i]?).map fun b => names b.cls) ∧
    (∀ i : ℕ, (detect_image names t bs).confidences[i]? =
      ((qualifying t bs)[i]?).map fun b => b.conf) ∧
    (∀ l : String,
      l ∈ (detect_image names t bs).unique_labels ↔
        l ∈ (detect_image names t bs).labels) ∧
    (detect_image names t bs).unique_labels.Nodup ∧
    (completedJob fn ts (detect_image names t bs)).all_labels =
      some (detect_image names t bs).labels ∧
    (completedJob fn ts (detect_image names t bs)).confidences =
      some (detect_image names t bs).confidences ∧
    (completedJob fn ts (detect_image names t bs)).total_objects =
      some (detect_image names t bs).total_objects ∧
    (completedJob fn ts (detect_image names t bs)).results =
      (detect_image names t bs).unique_labels ∧
    (completedJob fn ts (detect_image names t bs)).unique_objects =
      some (detect_image names t bs).unique_labels.length := by
  refine ⟨?_, rfl, ?_, ?_, ?_, ?_, rfl, rfl, rfl, rfl, rfl⟩
  · simp [detect_image]
  · intro i
    simp [detect_image]
  · intro i
    simp [detect_image]
  · intro l
    simp [detect_image, List.mem_dedup]
  · simp [detect_image, List.nodup_dedup]

/-- C4: on a valid upload the requested confidence is mapped into
`[0.1, 1.0]` exactly as the spec states — `0.5` when the field is absent
or its value is out of range, the exact value when in range
(`specExpectedThreshold` transcribes the spec); the job is created with
that threshold. -/
theorem c4_confidence_resolution (fname freshId : String) (ts : ℕ)
    (tsStr : String) (store : List (String × JobRec)) (saved : List String)
    (f : ConfField) (hfn : fname ≠ "") (hok : allowed_file fname = true)
    (hf : f ≠ ConfField.malformed) :
    (upload_image ⟨true, some fname, f⟩ freshId ts tsStr store
        saved).conf_used = specExpectedThreshold f ∧
    findMap (upload_image ⟨true, some fname, f⟩ freshId ts tsStr store
        saved).store freshId =
      (specExpectedThreshold f).map fun c =>
        queuedJob (tsStr ++ "_" ++ secure_filename fname) ts c := by
  cases f with
  | absent =>
    constructor
    · simp [upload_image, parse_confidence, specExpectedThreshold, hfn, hok]
      norm_num [clamp_confidence]
    · simp [upload_image, parse_confidence, specExpectedThreshold, hfn, hok,
        findMap_updMap_self]
      norm_num [clamp_confidence]
  | num q =>
    constructor
    · simp [upload_image, parse_confidence, specExpectedThreshold, hfn, hok,
        clamp_confidence]
    · simp [upload_image, parse_confidence, specExpectedThreshold, hfn, hok,
        clamp_confidence, findMap_updMap_self]
  | malformed => exact absurd rfl hf

/-- C4 witness: an in-range request `0.9` on a valid upload is used
exactly. -/
theorem c4_confidence_resolution_witness :
    ("f.png" : String) ≠ "" ∧ allowed_file "f.png" = true ∧
    (upload_image ⟨true, some "f.png", ConfField.num (9/10)⟩ "a" 0 "t" []
        []).conf_used = specExpectedThreshold (ConfField.num (9/10)) := by
  refine ⟨by decide, by decide, ?_⟩
  exact (c4_confidence_resolution "f.png" "a" 0 "t" [] []
    (ConfField.num (9/10)) (by decide) (by decide) (by decide)).1

/-- C5: `avg_confidence` of a completed job is the arithmetic mean of the
confidence sequence, `0` for the empty sequence (`mean_confidence`
transcribes line 73 of `src/app.py`); a single detection at `0.9`
averages `0.9`; and a job whose detector output has no qualifying boxes
completes normally — status completed, no error key, zero objects, zero
average. -/
theorem c5_average_confidence (cs : List ℚ) (hcs : cs ≠ [])
    (names : ℕ → String) (t : ℚ) (bs : List RawBox)
    (hbs : qualifying t bs = []) (fn : String) (ts : ℕ)
    (bs2 : List RawBox) :
    mean_confidence cs = cs.sum / (cs.length : ℚ) ∧
    mean_confidence [] = 0 ∧
    mean_confidence [9/10] = 9/10 ∧
    (completedJob fn ts (detect_image names t bs)).status =
      JobStatus.completed ∧
    (completedJob fn ts (detect_image names t bs)).error = none ∧
    (completedJob fn ts (detect_image names t bs)).total_objects = some 0 ∧
    (completedJob fn ts (detect_image names t bs)).avg_confidence = some 0 ∧
    (completedJob fn ts (detect_image names t bs2)).avg_confidence =
      some (mean_confidence (detect_image names t bs2).confidences) := by
  refine ⟨by simp [mean_confidence, hcs], rfl, ?_, rfl, rfl, ?_, ?_, rfl⟩
  · norm_num [mean_confidence]
  · simp [completedJob, detect_image, hbs]
  · simp [completedJob, detect_image, hbs, mean_confidence]

/-- C5 witness: the singleton list `[0.9]` and the zero-detection
completed job. -/
theorem c5_average_confidence_witness :
    ([(9:ℚ)/10] : List ℚ) ≠ [] ∧ qualifying (1/2) [] = [] ∧
    mean_confidence [9/10] = 9/10 ∧
    (completedJob "f.png" 0 (detect_image demoNames (1/2) [])).avg_confidence
      = some 0 := by
  have h := c5_average_confidence [9/10] (by simp) demoNames (1/2) [] rfl
    "f.png" 0 []
  exact ⟨by simp, rfl, h.2.2.1, h.2.2.2.2.2.2.1⟩

/-- C6: each way an upload can be invalid — detector model not loaded, no
`image` field, empty filename, unrecognised extension — yields the stated
validation response (503 for the detector, otherwise 400) with the job
map and saved files unchanged and no job id returned.  (A malformed
confidence field is the separate 500 path of C10, so the extension case
assumes the field parses.) -/
theorem c6_invalid_upload_rejected (req : UploadRequest) (freshId : String)
    (ts : ℕ) (tsStr : String) (store : List (String × JobRec))
    (saved : List String) :
    (req.modelLoaded = false →
      upload_image req freshId ts tsStr store saved =
        noJobOutcome 503 store saved) ∧
    (req.modelLoaded = true → req.imageField = none →
      upload_image req freshId ts tsStr store saved =
        noJobOutcome 400 store saved) ∧
    (∀ fname : String, req.modelLoaded = true →
      req.imageField = some fname → fname = "" →
      upload_image req freshId ts tsStr store saved =
        noJobOutcome 400 store saved) ∧
    (∀ fname : String, req.modelLoaded = true →
      req.imageField = some fname → fname ≠ "" →
      req.confidence ≠ ConfField.malformed → allowed_file fname = false →
      upload_image req freshId ts tsStr store saved =
        noJobOutcome 400 store saved) := by
  obtain ⟨ml, img, cf⟩ := req
  refine ⟨?_, ?_, ?_, ?_⟩
  · intro hml
    simp only at hml
    subst hml
    simp [upload_image, noJobOutcome]
  · intro hml himg
    simp only at hml himg
    subst hml
    subst himg
    simp [upload_image, noJobOutcome]
  · intro fname hml himg hempty
    simp only at hml himg
    subst hml
    subst himg
    subst hempty
    simp [upload_image, noJobOutcome]
  · intro fname hml himg hne hcf hext
    simp only at hml himg hcf
    subst hml
    subst himg
    cases cf with
    | absent => simp [upload_image, parse_confidence, hne, hext, noJobOutcome]
    | num q => simp [upload_image, parse_confidence, hne, hext, noJobOutcome]
    | malformed => exact absurd rfl hcf

/-- C6 witness: uploading `notes.txt` is rejected with 400 and creates
nothing. -/
theorem c6_invalid_upload_rejected_witness :
    allowed_file "notes.txt" = false ∧
    upload_image ⟨true, some "notes.txt", ConfField.absent⟩ "a" 0 "t" [] [] =
      noJobOutcome 400 [] [] := by
  refine ⟨by decide, ?_⟩
  exact (c6_invalid_upload_rejected ⟨true, some "notes.txt", ConfField.absent⟩
    "a" 0 "t" [] []).2.2.2 "notes.txt" rfl rfl (by decide) (by decide)
    (by decide)

/-- C7: for every id string that is not a key of `detection_jobs` — the
model quantifies over all strings, malformed or not — the result endpoint
answers 404 and leaves the job map exactly as it was. -/
theorem c7_unknown_id_not_found (jobs : List (String × JobRec))
    (job_id : String) (h : findMap jobs job_id = none) :
    get_result_endpoint jobs job_id = (Except.error 404, jobs) := by
  simp [get_result_endpoint, get_result, h]

/-- C7 witness: an unknown id against the empty store. -/
theorem c7_unknown_id_not_found_witness :
    findMap ([] : List (String × JobRec)) "no-such-job" = none ∧
    get_result_endpoint [] "no-such-job" = (Except.error 404, []) :=
  ⟨rfl, c7_unknown_id_not_found [] "no-such-job" rfl⟩

/-- C10: a present but unparseable confidence field makes `float()` raise
before the file save and the job insert; the outer handler answers 500
and both the job map and the saved files are unchanged — neither a `0.5`
substitution nor a 400 validation error. -/
theorem c10_malformed_confidence_500 (fname freshId : String) (ts : ℕ)
    (tsStr : String) (store : List (String × JobRec)) (saved : List String)
    (hfn : fname ≠ "") :
    upload_image ⟨true, some fname, ConfField.malformed⟩ freshId ts tsStr
        store saved = noJobOutcome 500 store saved := by
  simp [upload_image, parse_confidence, hfn, noJobOutcome]

/-- C10 witness: confidence `"abc"` on an otherwise valid upload. -/
theorem c10_malformed_confidence_500_witness :
    ("f.png" : String) ≠ "" ∧
    upload_image ⟨true, some "f.png", ConfField.malformed⟩ "a" 0 "t" [] [] =
      noJobOutcome 500 [] [] :=
  ⟨by decide, c10_malformed_confidence_500 "f.png" "a" 0 "t" [] [] (by decide)⟩

/-- C2: along any reachable step of the server, a job's status either
stays put or follows one of the three code edges — queued to processing,
processing to completed, processing to error.  Since no edge regresses,
re-enters queued or processing, leaves a terminal status, or jumps from
queued to a terminal status, every poll sequence is monotonic along
Queued to Processing to Completed/Error with no skip of Processing. -/
theorem c2_status_monotonic (s s' : ServerState) (hr : Reachable s)
    (hstep : Step s s') (id : String) (j j' : JobRec)
    (hj : findMap s.jobs id = some j) (hj' : findMap s'.jobs id = some j') :
    j'.status = j.status ∨ forwardEdge j.status j'.status = true := by
  have hinv := sysInv_reachable s hr
  cases hstep with
  | upload id0 fn ts conf hfresh =>
    by_cases hid : id = id0
    · subst hid
      rw [hfresh] at hj
      exact absurd hj (by simp)
    · left
      have heq : findMap (uploadState s id0 fn ts conf).jobs id =
          findMap s.jobs id := findMap_updMap_ne _ _ hid
      have h2 : j = j' := Option.some.inj ((hj.symm.trans (heq.symm.trans hj')))
      rw [h2]
  | mark id0 j0 thr hj0 ht0 hph =>
    by_cases hid : id = id0
    · subst hid
      have h2 : j = j0 := Option.some.inj (hj.symm.trans hj0)
      have hself : findMap (markState s id j0 thr).jobs id =
          some { j0 with status := JobStatus.processing } :=
        findMap_updMap_self _ _ _
      have h3 : j' = { j0 with status := JobStatus.processing } :=
        Option.some.inj (hj'.symm.trans hself)
      have hJT := hinv id
      rw [hj0, ht0] at hJT
      have hqd : j0.status = JobStatus.queued := (hJT.1 hph).1
      right
      subst h2
      subst h3
      rw [hqd]
      rfl
    · left
      have heq : findMap (markState s id0 j0 thr).jobs id =
          findMap s.jobs id := findMap_updMap_ne _ _ hid
      have h2 : j = j' := Option.some.inj ((hj.symm.trans (heq.symm.trans hj')))
      rw [h2]
  | complete id0 thr names boxes ts ht0 hph =>
    by_cases hid : id = id0
    · subst hid
      have hJT := hinv id
      rw [hj, ht0] at hJT
      have hpr : j.status = JobStatus.processing := (hJT.2.1 hph).1
      have hself : findMap (completeState s id thr names boxes ts).jobs id =
          some (completedJob thr.filename ts
            (detect_image names thr.conf_threshold boxes)) :=
        findMap_updMap_self _ _ _
      have h3 : j' = completedJob thr.filename ts
          (detect_image names thr.conf_threshold boxes) :=
        Option.some.inj (hj'.symm.trans hself)
      right
      subst h3
      rw [hpr]
      rfl
    · left
      have heq : findMap (completeState s id0 thr names boxes ts).jobs id =
          findMap s.jobs id := findMap_updMap_ne _ _ hid
      have h2 : j = j' := Option.some.inj ((hj.symm.trans (heq.symm.trans hj')))
      rw [h2]
  | fail id0 thr msg ts ht0 hph =>
    by_cases hid : id = id0
    · subst hid
      have hJT := hinv id
      rw [hj, ht0] at hJT
      have hpr : j.status = JobStatus.processing := (hJT.2.1 hph).1
      have hself : findMap (failState s id thr msg ts).jobs id =
          some (errorJob thr.filename ts msg) := findMap_updMap_self _ _ _
      have h3 : j' = errorJob thr.filename ts msg :=
        Option.some.inj (hj'.symm.trans hself)
      right
      subst h3
      rw [hpr]
      rfl
    · left
      have heq : findMap (failState s id0 thr msg ts).jobs id =
          findMap s.jobs id := findMap_updMap_ne _ _ hid
      have h2 : j = j' := Option.some.inj ((hj.symm.trans (heq.symm.trans hj')))
      rw [h2]

/-- C2 witness: the demo job's queued-to-processing step follows a
forward edge. -/
theorem c2_status_monotonic_witness :
    Reachable demoUp ∧ Step demoUp demoMark ∧
    findMap demoUp.jobs "a" = some demoQJ ∧
    findMap demoMark.jobs "a" = some demoPJ ∧
    (demoPJ.status = demoQJ.status ∨
      forwardEdge demoQJ.status demoPJ.status = true) := by
  refine ⟨demoReachUp, demoStepMark, rfl, rfl, ?_⟩
  exact c2_status_monotonic demoUp demoMark demoReachUp demoStepMark "a"
    demoQJ demoPJ rfl rfl

/-- C8: a valid upload is a genuine step which inserts the job with
status queued before the id is returned, and no later sequence of server
steps ever removes it: every subsequent read of the returned id finds a
record, so the result endpoint answers 200, never 404. -/
theorem c8_upload_always_retrievable (s : ServerState) (id fn : String)
    (ts : ℕ) (conf : ℚ) (hfresh : findMap s.jobs id = none)
    (s2 : ServerState)
    (hsteps : Relation.ReflTransGen Step (uploadState s id fn ts conf) s2) :
    Step s (uploadState s id fn ts conf) ∧
    findMap (uploadState s id fn ts conf).jobs id =
      some (queuedJob fn ts conf) ∧
    (queuedJob fn ts conf).status = JobStatus.queued ∧
    ∃ j' : JobRec, findMap s2.jobs id = some j' ∧
      ∃ r : ResultResponse, get_result s2.jobs id = Except.ok r := by
  refine ⟨Step.upload s id fn ts conf hfresh, findMap_updMap_self _ _ _,
    rfl, ?_⟩
  obtain ⟨j', hj'⟩ := rtg_preserves_job _ _ hsteps id (queuedJob fn ts conf)
    (findMap_updMap_self _ _ _)
  refine ⟨j', hj', ?_⟩
  simp [get_result, hj']

/-- C8 witness: the demo upload is retrievable after the processing
step. -/
theorem c8_upload_always_retrievable_witness :
    findMap initState.jobs "a" = none ∧
    findMap demoUp.jobs "a" = some (queuedJob "f.png" 0 (9/10)) ∧
    (∃ j' : JobRec, findMap demoMark.jobs "a" = some j' ∧
      ∃ r : ResultResponse, get_result demoMark.jobs "a" = Except.ok r) := by
  have h := c8_upload_always_retrievable initState "a" "f.png" 0 (9/10) rfl
    demoMark (Relation.ReflTransGen.single demoStepMark)
  exact ⟨rfl, h.2.1, h.2.2.2⟩

/-- C1 counterexample: a job uploaded with confidence threshold `0.9`
is completed along a reachable trace, after which the result endpoint
reports `confidence_threshold = 0.5`, not the value stored at creation —
the completed record replaced the whole dict and dropped the key. -/
theorem c1_threshold_not_preserved :
    Reachable demoDone ∧
    findMap demoUp.jobs "a" = some (queuedJob "f.png" 0 (9/10)) ∧
    (queuedJob "f.png" 0 (9/10)).confidence_threshold = some (9/10) ∧
    findMap demoDone.jobs "a" = some demoCJ ∧
    demoCJ.status = JobStatus.completed ∧
    (get_result demoDone.jobs "a").map ResultResponse.confidence_threshold =
      Except.ok (1/2) ∧
    (1/2 : ℚ) ≠ 9/10 := by
  refine ⟨demoReachDone, rfl, rfl, rfl, rfl, rfl, by norm_num⟩

/-- C1 as amended: the creation threshold is reported back only while the
job is queued or processing (where it equals the spawned thread's
argument, the creation value); once the job is completed or errored the
record was replaced without the key and every read reports the default
`0.5`. -/
theorem c1_threshold_after_terminal (s : ServerState) (id : String)
    (j : JobRec) (hr : Reachable s) (hj : findMap s.jobs id = some j) :
    ((j.status = JobStatus.completed ∨ j.status = JobStatus.error) →
      (get_result s.jobs id).map ResultResponse.confidence_threshold =
        Except.ok (1/2)) ∧
    ((j.status = JobStatus.queued ∨ j.status = JobStatus.processing) →
      ∃ thr : BgThread, findMap s.threads id = some thr ∧
        (get_result s.jobs id).map ResultResponse.confidence_threshold =
          Except.ok thr.conf_threshold) := by
  have hJT := sysInv_reachable s hr id
  rw [hj] at hJT
  cases hth : findMap s.threads id with
  | none =>
    rw [hth] at hJT
    exact absurd hJT (by simp [JT])
  | some thr =>
    rw [hth] at hJT
    simp only [JT] at hJT
    obtain ⟨h1, h2, h3⟩ := hJT
    constructor
    · intro hterm
      have hnone : j.confidence_threshold = none := by
        cases hph : thr.phase with
        | spawned =>
          have hst := (h1 hph).1
          rcases hterm with h | h <;> rw [hst] at h <;> exact absurd h (by simp)
        | running =>
          have hst := (h2 hph).1
          rcases hterm with h | h <;> rw [hst] at h <;> exact absurd h (by simp)
        | finished => exact (h3 hph).2
      simp [get_result, hj, hnone, Except.map]
    · intro hact
      have hphase : thr.phase = Phase.spawned ∨ thr.phase = Phase.running := by
        cases hph : thr.phase with
        | spawned => exact Or.inl rfl
        | running => exact Or.inr rfl
        | finished =>
          obtain ⟨hst, _⟩ := h3 hph
          rcases hact with h | h <;> rcases hst with h' | h' <;>
            rw [h'] at h <;> exact absurd h (by simp)
      have hsome : j.confidence_threshold = some thr.conf_threshold := by
        rcases hphase with hph | hph
        · exact (h1 hph).2
        · exact (h2 hph).2
      exact ⟨thr, rfl, by simp [get_result, hj, hsome, Except.map]⟩

/-- C1 witness: the completed demo job reports the default `0.5`. -/
theorem c1_threshold_after_terminal_witness :
    Reachable demoDone ∧ findMap demoDone.jobs "a" = some demoCJ ∧
    demoCJ.status = JobStatus.completed ∧
    (get_result demoDone.jobs "a").map ResultResponse.confidence_threshold =
      Except.ok (1/2) := by
  refine ⟨demoReachDone, rfl, rfl, ?_⟩
  exact (c1_threshold_after_terminal demoDone "a" demoCJ demoReachDone rfl).1
    (Or.inl rfl)

/-- C9 counterexample: there is no bound at all — for every candidate
worker limit some reachable state has more simultaneously executing
detector invocations, because each upload starts its own thread
immediately. -/
theorem c9_no_worker_pool_bound :
    ¬ ∃ k : ℕ, ∀ s : ServerState, Reachable s → inFlight s ≤ k := by
  rintro ⟨k, hk⟩
  obtain ⟨s, hr, hcount, -⟩ := exists_inflight (k + 1)
  have := hk s hr
  omega

/-- C9 as amended: each valid upload spawns its own background thread
(`threading.Thread` per request, `src/app.py` lines 143-148); no worker
pool exists, so for every `n` some reachable state runs `n` detections
simultaneously and no upload waits in queued for a free worker. -/
theorem c9_thread_per_upload_unbounded (n : ℕ) :
    ∃ s : ServerState, Reachable s ∧ inFlight s = n := by
  obtain ⟨s, hr, hcount, -⟩ := exists_inflight n
  exact ⟨s, hr, hcount⟩
